import Mathlib

/-!
Verification development for the Keacast AI agent orchestration core.

The definitions below are shallow embeddings of the JavaScript source:
  - controllers/openaiController.js  (message sanitization, truncation,
    context assembly with the byte-budget eviction loop, tool execution,
    history persistence)
  - services/openaiService.js        (upstream completion client retry logic)
  - services/contextCache.service.js (tiered context cache)
  - services/transactions.service.js (count queries)
  - tools/functionMap.js             (tool functions with pagination fallback)

Modelling conventions:
  - message text is a `List Char`; JavaScript string lengths are list lengths;
  - timestamps are `Nat` milliseconds;
  - a JavaScript function that can throw is embedded as `Except`-valued;
  - upstream/network collaborators (the completion service, the HTTP data
    providers, redis) are passed in as explicit parameters or state so the
    control flow of the embedded code is exercised exactly.
-/

set_option maxHeartbeats 1000000

/-- One tool call reference carried by an assistant message
(`tool_calls` entries in controllers/openaiController.js). -/
structure ToolCall where
  id : String

deriving instance DecidableEq, Repr for ToolCall

/-- A chat message as handled by controllers/openaiController.js:
`{role, content, tool_calls?, tool_call_id?}`. -/
structure Message where
  role : String
  content : List Char
  tool_calls : List ToolCall
  tool_call_id : Option String

deriving instance DecidableEq, Repr for Message

/-- Embeds `MAX_MESSAGE_LENGTH` (openaiController.js line 9). -/
def MAX_MESSAGE_LENGTH : Nat := 20000

/-- Embeds `SYSTEM_PROMPT_MAX_LENGTH` (openaiController.js line 10). -/
def SYSTEM_PROMPT_MAX_LENGTH : Nat := 15000

/-- JavaScript `String.prototype.trim`: drop whitespace from both ends. -/
def jsTrim (l : List Char) : List Char :=
  ((l.dropWhile Char.isWhitespace).reverse.dropWhile Char.isWhitespace).reverse

/-- Embeds `truncateText` (openaiController.js lines 22-27): trim, and if the trimmed
string is longer than `maxChars`, keep `max 0 (maxChars - 1)` characters and
append an ellipsis character. -/
def truncateText (text : List Char) (maxChars : Nat) : List Char :=
  let str := jsTrim text
  if str.length ≤ maxChars then str
  else str.take (maxChars - 1) ++ ['…']

/-- The role-specific character ceiling chosen inside `truncateMessage`
(openaiController.js line 110): system messages use `SYSTEM_PROMPT_MAX_LENGTH`,
every other role uses `MAX_MESSAGE_LENGTH` (the default `maxLength`). -/
def truncationLimit (role : String) : Nat :=
  if role == "system" then SYSTEM_PROMPT_MAX_LENGTH else MAX_MESSAGE_LENGTH

/-- Embeds `truncateMessage` (openaiController.js lines 104-115). An empty `content`
is falsy in JavaScript, so such a message is returned unchanged. -/
def truncateMessage (m : Message) : Message :=
  if m.content.isEmpty then m
  else { m with content := truncateText m.content (truncationLimit m.role) }

/-- The backward search of `sanitizeMessageArray` (openaiController.js lines
168-178): does some message in `seen` (the part of the original array before
the current index) have role `assistant`, a non-empty `tool_calls`, and a
`tool_calls` entry whose id equals the tool message's `tool_call_id`? -/
def hasMatchingToolCall (seen : List Message) (tid : Option String) : Bool :=
  seen.any fun prev =>
    prev.role == "assistant" && !prev.tool_calls.isEmpty &&
      prev.tool_calls.any fun tc => (some tc.id : Option String) == tid

/-- The per-message keep decision of `sanitizeMessageArray`: system, user and
assistant messages are always kept; a tool message is kept only when
`hasMatchingToolCall` succeeds on the preceding original messages; any other
role falls through and is kept. -/
def keptMessage (seen : List Message) (m : Message) : Bool :=
  if m.role == "system" || m.role == "user" || m.role == "assistant" then true
  else if m.role == "tool" then hasMatchingToolCall seen m.tool_call_id
  else true

/-- The loop of `sanitizeMessageArray` (openaiController.js lines 148-192).
`seen` accumulates the already-traversed prefix of the original array (the
JavaScript code indexes backwards into the original `messages`, dropped
entries included). -/
def sanitizeAux (seen : List Message) : List Message → List Message
  | [] => []
  | m :: rest =>
    (if keptMessage seen m then [m] else []) ++ sanitizeAux (seen ++ [m]) rest

/-- Embeds `sanitizeMessageArray` (openaiController.js lines 148-192). -/
def sanitizeMessageArray (messages : List Message) : List Message :=
  sanitizeAux [] messages

/-- A sequence is orphan-free relative to an already-seen prefix `seen`: every
tool message has a matching preceding assistant `tool_calls` entry. This is
the §3 invariant of the specification ("a `tool` message is valid only if
some earlier `assistant` message in the same ordered sequence carries a
`toolCalls` entry whose id matches"). -/
def orphanFreeFrom (seen : List Message) : List Message → Prop
  | [] => True
  | m :: rest =>
    (m.role = "tool" → hasMatchingToolCall seen m.tool_call_id = true) ∧
      orphanFreeFrom (seen ++ [m]) rest

/-- Serialized size of one message, modelling the length of its
`JSON.stringify` rendering `\x7b"role":"<role>","content":"<content>"\x7d`
(24 framing characters plus the role and content lengths, assuming no
characters that JSON escapes; this is the shape of every message the chat
controller constructs). -/
def msgJsonSize (m : Message) : Nat :=
  24 + m.role.length + m.content.length

/-- Serialized size of a message array, modelling
`JSON.stringify(messages).length`: two brackets, the messages, and a comma
between consecutive messages. -/
def serializedSize (msgs : List Message) : Nat :=
  2 + (msgs.map msgJsonSize).sum + (msgs.length - 1)

/-- The request byte budget of the chat endpoint
(`requestSize > 750000`, openaiController.js line 770). -/
def REQUEST_BYTE_BUDGET : Nat := 750000

/-- Embeds `maxAttempts` of the eviction loop (openaiController.js line 775). -/
def MAX_EVICTION_ATTEMPTS : Nat := 20

/-- The `{role: 'system', content}` message the chat controller prepends. -/
def systemMessage (content : List Char) : Message :=
  ⟨"system", content, [], none⟩

/-- A `{role: 'user', content}` message as the chat controller pushes for
context messages and for the new user message. -/
def userMessage (content : List Char) : Message :=
  ⟨"user", content, [], none⟩

/-- A `{role: 'assistant', content}` message as appended after an exchange. -/
def assistantMessage (content : List Char) : Message :=
  ⟨"assistant", content, [], none⟩

/-- Result of the chat context assembly: the outbound `messages` array, the
remaining `history` after evictions, and the loop's `attempts` counter. -/
structure ChatAssembly where
  messages : List Message
  history : List Message
  attempts : Nat

deriving instance DecidableEq, Repr for ChatAssembly

/-- The eviction `while` loop of the chat endpoint (openaiController.js lines
777-795).  Inside the loop the guard `requestSize > 750000` re-reads the
`const` computed before the loop, which is `> 750000` whenever the loop is
entered at all, so the live exit conditions are `attempts < maxAttempts`,
`history.length > 2`, and the `newSize <= 750000` break.  Each iteration
shifts the oldest history message and rebuilds `messages` as
`[system] ++ history.map(truncateMessage) ++ [new user message]`
(the two `splice` calls keep exactly the first and last element). -/
def evictOldest (sysMsg userMsg : Message) :
    List Message → List Message → Nat → ChatAssembly
  | history, messages, attempts =>
    if MAX_EVICTION_ATTEMPTS ≤ attempts ∨ history.length ≤ 2 then
      ⟨messages, history, attempts⟩
    else
      match history with
      | [] => ⟨messages, [], attempts⟩
      | _ :: rest =>
        let newMessages := sysMsg :: (rest.map truncateMessage ++ [userMsg])
        if serializedSize newMessages ≤ REQUEST_BYTE_BUDGET then
          ⟨newMessages, rest, attempts⟩
        else
          evictOldest sysMsg userMsg rest newMessages (attempts + 1)

/-- The context assembly of the chat endpoint (openaiController.js lines
736-800): one system message, the sanitized and truncated history, the
context messages (rendered as user-role messages), the new user message last;
then, if the serialized size exceeds the byte budget, the eviction loop. -/
def chatAssemble (systemContent : List Char) (contextMsgs : List (List Char))
    (history : List Message) (message : List Char) : ChatAssembly :=
  let sysMsg := systemMessage systemContent
  let userMsg := userMessage message
  let messages :=
    sysMsg ::
      (sanitizeMessageArray (history.map truncateMessage) ++
        contextMsgs.map userMessage ++ [userMsg])
  if REQUEST_BYTE_BUDGET < serializedSize messages then
    evictOldest sysMsg userMsg history messages 0
  else
    ⟨messages, history, 0⟩

/-- Embeds `MAX_MEMORY` (openaiController.js line 8): history sliding window. -/
def MAX_MEMORY : Nat := 10

/-- The history persisted after a completed exchange (openaiController.js
lines 849-856): the sanitized prior history, the user's message and the
assistant's final answer, kept to the last `MAX_MEMORY` entries
(`.slice(-MAX_MEMORY)`). -/
def persistedHistory (history : List Message) (userText finalText : List Char) :
    List Message :=
  let updated :=
    sanitizeMessageArray history ++
      [userMessage userText, assistantMessage finalText]
  updated.drop (updated.length - MAX_MEMORY)

/-- Embeds `MAX_RETRIES` (openaiService.js line 16). -/
def MAX_RETRIES : Nat := 3

/-- Embeds `callAOAI` (openaiService.js lines 23-64).  `upstream n` is the outcome of
the `n`-th HTTP attempt: `.ok` is a successful response, `.error s` a failure
whose `error.response.status` is `s`.  The second component of the result
counts the HTTP attempts performed.  On 429 with `retryCount < MAX_RETRIES`
the call retries (after a retry-after delay, irrelevant to the embedding); on
status `>= 500` with `retryCount < MAX_RETRIES` it retries with exponential
backoff; otherwise the error is rethrown. -/
def callAOAI {α : Type} (upstream : Nat → Except Nat α) (retryCount : Nat) :
    Except Nat α × Nat :=
  match upstream retryCount with
  | .ok d => (.ok d, 1)
  | .error status =>
    if status = 429 ∧ retryCount < MAX_RETRIES then
      let r := callAOAI upstream (retryCount + 1)
      (r.1, r.2 + 1)
    else if 500 ≤ status ∧ retryCount < MAX_RETRIES then
      let r := callAOAI upstream (retryCount + 1)
      (r.1, r.2 + 1)
    else
      (.error status, 1)
termination_by MAX_RETRIES + 1 - retryCount
decreasing_by
  · omega
  · omega

/-- The `function` field of a requested tool call:
`{name, arguments}` (both may be absent). -/
structure ToolFunctionSpec where
  name : Option String
  argumentsJson : Option String

/-- A tool call requested by the model (openaiController.js line 396:
`toolCall.function || \x7b\x7d` tolerates a missing `function` field). -/
structure ToolCallRequest where
  id : String
  function : Option ToolFunctionSpec

/-- A tool implementation: from the raw `arguments` JSON to either a
serialized result payload (`.ok`) or a thrown error message (`.error`).
The `JSON.parse` of the arguments (with its catch-to-empty-object) happens
inside the embedded tool. -/
def ToolFn : Type := Option String → Except String String

/-- One entry of the `toolResults` array built by `executeToolCalls`:
either `\x7bname, result, content\x7d` or `\x7bname, error\x7d`. -/
inductive ToolResultEntry where
  | ok (name : Option String) (content : String)
  | err (name : Option String) (message : String)

/-- JavaScript string interpolation of a possibly-undefined name. -/
def jsNameString : Option String → String
  | none => "undefined"
  | some s => s

/-- Embeds `createIntelligentTruncation` (openaiController.js lines 29-102) applied
to an already-serialized payload, i.e. its non-object fallback branch: keep
`maxSize - 50` characters and append the truncation marker. -/
def createIntelligentTruncationStr (s : String) (maxSize : Nat) : String :=
  if maxSize < s.length then
    String.mk (s.data.take (maxSize - 50)) ++ "...\x22_truncated\x22:true\x7d"
  else s

/-- The execution phase of `executeToolCalls` (openaiController.js lines
391-421): the `for` loop over the requested tool calls, pushing exactly one
`toolResults` entry per call.  An unknown (or missing) tool name yields an
error entry; a tool that throws yields an error entry with the thrown message
(or the fallback text when the message is falsy); a successful tool yields a
content entry, truncated above 10000 characters. -/
def executeToolCallsPhase (registry : String → Option ToolFn) :
    List ToolCallRequest → List ToolResultEntry
  | [] => []
  | tc :: rest =>
    let spec := tc.function.getD ⟨none, none⟩
    let entry : ToolResultEntry :=
      match spec.name.bind registry with
      | none => .err spec.name ("Unknown tool: " ++ jsNameString spec.name)
      | some f =>
        match f spec.argumentsJson with
        | .ok content =>
          .ok spec.name
            (if 10000 < content.length then
              createIntelligentTruncationStr content 10000
            else content)
        | .error e =>
          .err spec.name (if e == "" then "Tool execution failed" else e)
    entry :: executeToolCallsPhase registry rest

/-- The per-call semantics of the execution phase: what a single requested
tool call contributes, independently of every other call in the batch. -/
def execOneToolCall (registry : String → Option ToolFn)
    (tc : ToolCallRequest) : ToolResultEntry :=
  let spec := tc.function.getD ⟨none, none⟩
  match spec.name.bind registry with
  | none => .err spec.name ("Unknown tool: " ++ jsNameString spec.name)
  | some f =>
    match f spec.argumentsJson with
    | .ok content =>
      .ok spec.name
        (if 10000 < content.length then
          createIntelligentTruncationStr content 10000
        else content)
    | .error e =>
      .err spec.name (if e == "" then "Tool execution failed" else e)

/-- The freshness threshold of the context cache: `ageMinutes < 30` with
`ageMinutes = (now - lastUpdated) / 60000`, i.e. an age below 30 minutes in
milliseconds (contextCache.service.js lines 44-47). -/
def FRESHNESS_WINDOW_MS : Nat := 30 * 60 * 1000

/-- The cached user-context payload.  Only the `_buildTime` stamp
(contextCache.service.js line 135) is retained; the remaining payload fields
come from external data providers and play no role in the freshness logic. -/
structure CachedContext where
  buildTime : Nat

deriving instance DecidableEq, Repr for CachedContext

/-- The redis state the context cache reads and writes for one
(user, account) pair: the `context:user:...` entry and the independent
`lastupdated:<userId>` marker. -/
structure CacheState where
  context : Option CachedContext
  lastUpdated : Option Nat

deriving instance DecidableEq, Repr for CacheState

/-- What `getUserContext` hands back to its caller: the payload's build stamp
and the `_cached` annotation. -/
structure ContextResult where
  buildTime : Nat
  cached : Bool

deriving instance DecidableEq, Repr for ContextResult

/-- Embeds `buildUserContext` (contextCache.service.js lines 80-151), reduced to the
claim-relevant field: the fresh payload carries `_buildTime = now`. -/
def buildUserContext (now : Nat) : CachedContext :=
  ⟨now⟩

/-- Embeds `cacheUserContext` (contextCache.service.js lines 156-171): store the
payload and refresh the `lastUpdated` marker to `now`. -/
def cacheUserContext (now : Nat) (c : CachedContext) : CacheState :=
  { context := some c, lastUpdated := some now }

/-- Embeds `getUserContext` (contextCache.service.js lines 31-75): if both the cached
context and the `lastUpdated` marker are present and the age is below the
freshness window, return the cached payload annotated `_cached: true`;
otherwise build a fresh payload, cache it with a refreshed marker, and return
it annotated as freshly built. -/
def getUserContext (st : CacheState) (now : Nat) : ContextResult × CacheState :=
  match st.context, st.lastUpdated with
  | some c, some lu =>
    if now - lu < FRESHNESS_WINDOW_MS then
      (⟨c.buildTime, true⟩, st)
    else
      let fresh := buildUserContext now
      (⟨fresh.buildTime, false⟩, cacheUserContext now fresh)
  | _, _ =>
    let fresh := buildUserContext now
    (⟨fresh.buildTime, false⟩, cacheUserContext now fresh)

/-- Reachable cache states: whenever both the payload and the marker are
present, the payload was built no later than the marker was written (the
cache writes both in the same `cacheUserContext` call). -/
def CacheWellFormed (st : CacheState) : Prop :=
  ∀ c lu, st.context = some c → st.lastUpdated = some lu → c.buildTime ≤ lu

/-- A thrown JavaScript error, as inspected by the tool layer
(`error.message.includes(...)`). -/
structure JsError where
  message : String

deriving instance DecidableEq, Repr for JsError

/-- Is the first list a leading segment of the second?
(helper for `strIncludes`). -/
def leadsWith : List Char → List Char → Bool
  | [], _ => true
  | _ :: _, [] => false
  | a :: as, b :: bs => a == b && leadsWith as bs

/-- Does `needle` occur as a contiguous segment of `hay`?
(helper for `strIncludes`). -/
def listIncludes (needle : List Char) : List Char → Bool
  | [] => needle.isEmpty
  | c :: rest => leadsWith needle (c :: rest) || listIncludes needle rest

/-- JavaScript `String.prototype.includes`: does the pattern occur as a
substring? -/
def strIncludes (s pat : String) : Bool :=
  listIncludes pat.data s.data

/-- JavaScript truthiness of an optional string: `undefined` and the empty
string are falsy. -/
def jsTruthy : Option String → Bool
  | none => false
  | some s => !(s == "")

/-- JavaScript `a || b` on optional strings. -/
def jsOr (a b : Option String) : Option String :=
  if jsTruthy a then a else b

/-- JavaScript `a || d` on optional numbers (`0` is falsy). -/
def jsOrNat (a : Option Nat) (d : Nat) : Nat :=
  match a with
  | none => d
  | some n => if n == 0 then d else n

/-- A row of the `transactions` table, reduced to the columns the embedded
queries filter on; `start` dates are modelled as ordered `Nat` values. -/
structure TransactionRow where
  accountid : String
  start : Nat
  forecast_type : String

deriving instance DecidableEq, Repr for TransactionRow

/-- Embeds `getTransactionsByUserAndAccountCount` (transactions.service.js lines
51-65): `SELECT COUNT(*) FROM transactions WHERE accountid = ? AND start
BETWEEN ? AND ?` — the `userId` parameter does not occur in the WHERE
clause. -/
def getTransactionsByUserAndAccountCount (db : List TransactionRow)
    (userId accountId : String) (startDate endDate : Nat) : Nat :=
  let _ := userId
  (db.filter fun t =>
    t.accountid == accountId &&
      decide (startDate ≤ t.start) && decide (t.start ≤ endDate)).length

/-- The `total_transactions` column of `getTransactionSummary`
(transactions.service.js lines 170-191): `COUNT(*)` over the same
`accountid`/date-range WHERE clause (again without `userId`). -/
def getTransactionSummaryTotal (db : List TransactionRow)
    (userId accountId : String) (startDate endDate : Nat) : Nat :=
  let _ := userId
  (db.filter fun t =>
    t.accountid == accountId &&
      decide (startDate ≤ t.start) && decide (t.start ≤ endDate)).length

/-- Embeds `getUpcomingByAccountAndRangeCount` (transactions.service.js lines
139-148): `COUNT(*) ... WHERE accountid = ? AND forecast_type = ? AND start
BETWEEN ? AND ?`. -/
def getUpcomingByAccountAndRangeCount (db : List TransactionRow)
    (accountId : String) (startDate endDate : Nat) (forecastType : String) :
    Nat :=
  (db.filter fun t =>
    t.accountid == accountId && t.forecast_type == forecastType &&
      decide (startDate ≤ t.start) && decide (t.start ≤ endDate)).length

/-- The result of a paginated list query, reduced to the fields the tool layer
inspects: the returned rows and `pagination.total`. -/
structure TransactionsPage where
  transactions : List TransactionRow
  total : Nat

deriving instance DecidableEq, Repr for TransactionsPage

/-- Return values of the `getUserTransactions` tool (functionMap.js lines
474-529). -/
inductive GetUserTransactionsResult where
  | missingAccount (error message : String)
  | paged (result : TransactionsPage) (message : Option String)
  | memoryFallback (message : String) (total : Nat)

deriving instance DecidableEq, Repr for GetUserTransactionsResult

/-- Embeds `getUserTransactions` of the tool registry (functionMap.js lines 474-529).
`paginatedOutcome` is the outcome of the
`getTransactionsByUserAndAccountPaginated` call (`.error` when the underlying
query throws).  Missing account id: error object, no query.  Thrown error
whose message includes `sort memory`: count-only fallback computed from the
summary query over the same filter parameters; any other error is rethrown. -/
def getUserTransactionsTool (db : List TransactionRow)
    (paginatedOutcome : Except JsError TransactionsPage) (userId : String)
    (argsAccountId ctxAccountId : Option String) (startDate endDate : Nat)
    (argsPage argsLimit : Option Nat) :
    Except JsError GetUserTransactionsResult :=
  let accountId := jsOr argsAccountId ctxAccountId
  let page := jsOrNat argsPage 1
  let limit := jsOrNat argsLimit 50
  if !jsTruthy accountId then
    .ok (.missingAccount
      "Account ID is required but not provided in arguments or context"
      "Please specify an accountId parameter or ensure it is available in the session context")
  else
    match paginatedOutcome with
    | .ok result =>
      if page == 1 && limit < result.total then
        .ok (.paged result (some
          ("Retrieved " ++ toString result.transactions.length ++ " of " ++
            toString result.total ++
            " transactions. Use pagination for more transactions.")))
      else
        .ok (.paged result none)
    | .error e =>
      if strIncludes e.message "sort memory" then
        let total :=
          getTransactionSummaryTotal db userId (accountId.getD "")
            startDate endDate
        .ok (.memoryFallback
          ("Database memory limit reached. Summary: " ++ toString total ++
            " transactions found. Please use smaller date ranges.") total)
      else
        .error e

/-- Return values of the `getUpcomingTransactions` tool (functionMap.js lines
567-603). -/
inductive GetUpcomingResult where
  | paged (result : TransactionsPage) (message : Option String)
  | memoryFallback (message : String) (total : Nat)

deriving instance DecidableEq, Repr for GetUpcomingResult

/-- Embeds `getUpcomingTransactions` of the tool registry (functionMap.js lines
567-603).  On a thrown `sort memory` error the fallback calls
`getUpcomingByAccountAndRangeCount` with the same filter parameters. -/
def getUpcomingTransactionsTool (db : List TransactionRow)
    (paginatedOutcome : Except JsError TransactionsPage)
    (argsAccountId ctxAccountId : Option String) (startDate endDate : Nat)
    (forecastType : Option String) (argsPage argsLimit : Option Nat) :
    Except JsError GetUpcomingResult :=
  let accountId := jsOr argsAccountId ctxAccountId
  let ft := forecastType.getD "F"
  let page := jsOrNat argsPage 1
  let limit := jsOrNat argsLimit 30
  match paginatedOutcome with
  | .ok result =>
    if page == 1 && limit < result.total then
      .ok (.paged result (some
        ("Retrieved " ++ toString result.transactions.length ++ " of " ++
          toString result.total ++
          " upcoming transactions. Use pagination for more transactions.")))
    else
      .ok (.paged result none)
  | .error e =>
    if strIncludes e.message "sort memory" then
      let total :=
        getUpcomingByAccountAndRangeCount db (accountId.getD "")
          startDate endDate ft
      .ok (.memoryFallback
        ("Database memory limit reached. Found " ++ toString total ++
          " upcoming transactions total. Please use smaller date ranges.")
        total)
    else
      .error e

/-- Return values of the `getBalances` tool (functionMap.js lines 728-750);
the balances payload itself comes from the external Keacast API and is left
abstract. -/
inductive GetBalancesResult (α : Type) where
  | missingAccount (error message : String)
  | balances (value : α)

/-- Embeds `getBalances` of the tool registry (functionMap.js lines 728-750):
`accountId = args.accountId || ctx.accountId`; when that is falsy, return the
error-message object without calling the balances API, whose outcome
`balancesOutcome` is otherwise returned. -/
def getBalancesTool {α : Type} (balancesOutcome : Except JsError α)
    (argsAccountId ctxAccountId : Option String) :
    Except JsError (GetBalancesResult α) :=
  let accountId := jsOr argsAccountId ctxAccountId
  if !jsTruthy accountId then
    .ok (.missingAccount
      "Account ID is required but not provided in arguments or context"
      "Please specify an accountId parameter or ensure it is available in the session context")
  else
    balancesOutcome.map .balances

/-- A concrete three-message prior history (small user/assistant turns). -/
def c1BadHistory : List Message :=
  [⟨"user", ['a'], [], none⟩, ⟨"assistant", ['b'], [], none⟩,
    ⟨"user", ['c'], [], none⟩]

/-- The chat assembly for that history together with a new user message of
800000 characters: the assembled request exceeds the byte budget, but the
eviction loop stops as soon as only two history messages remain. -/
def c1Bad : ChatAssembly :=
  chatAssemble ['S'] [] c1BadHistory (List.replicate 800000 'a')

/-!  ## Theorems  -/

theorem mem_of_mem_sanitizeAux {m : Message} :
    ∀ {l seen : List Message}, m ∈ sanitizeAux seen l → m ∈ l := by
  intro l
  induction l with
  | nil => intro seen h; simp [sanitizeAux] at h
  | cons x rest ih =>
    intro seen h
    unfold sanitizeAux at h
    rcases List.mem_append.mp h with h1 | h2
    · rcases Bool.eq_false_or_eq_true (keptMessage seen x) with hk | hk <;>
        simp [hk] at h1
      simp [h1]
    · exact List.mem_cons_of_mem x (ih h2)

theorem hasMatchingToolCall_mono {s1 s2 : List Message}
    (h : ∀ x ∈ s1, x.role = "assistant" → x ∈ s2) (tid : Option String)
    (hm : hasMatchingToolCall s1 tid = true) :
    hasMatchingToolCall s2 tid = true := by
  simp only [hasMatchingToolCall, List.any_eq_true, Bool.and_eq_true,
    beq_iff_eq] at hm ⊢
  obtain ⟨x, hx, ⟨hrole, hne⟩, hmatch⟩ := hm
  exact ⟨x, h x hx hrole, ⟨hrole, hne⟩, hmatch⟩

theorem keptMessage_of_ne_tool {m : Message} (seen : List Message)
    (h : m.role ≠ "tool") : keptMessage seen m = true := by
  unfold keptMessage
  split
  · rfl
  · simp [h]

theorem keptMessage_of_assistant {m : Message} (seen : List Message)
    (h : m.role = "assistant") : keptMessage seen m = true := by
  simp [keptMessage, h]

theorem keptMessage_of_tool {m : Message} (seen : List Message)
    (h : m.role = "tool") :
    keptMessage seen m = hasMatchingToolCall seen m.tool_call_id := by
  simp [keptMessage, h]

theorem sanitizeAux_orphanFreeFrom :
    ∀ (l seen out : List Message),
      (∀ x ∈ seen, x.role = "assistant" → x ∈ out) →
      orphanFreeFrom out (sanitizeAux seen l) := by
  intro l
  induction l with
  | nil => intro seen out _; simp [sanitizeAux, orphanFreeFrom]
  | cons m rest ih =>
    intro seen out hsub
    unfold sanitizeAux
    cases hk : keptMessage seen m with
    | false =>
      rw [if_neg Bool.false_ne_true, List.nil_append]
      apply ih (seen ++ [m]) out
      intro x hx hrole
      rcases List.mem_append.mp hx with hx1 | hx2
      · exact hsub x hx1 hrole
      · exfalso
        have hxm : x = m := by simpa using hx2
        subst hxm
        rw [keptMessage_of_assistant seen hrole] at hk
        simp at hk
    | true =>
      rw [if_pos rfl, List.singleton_append]
      refine ⟨?_, ?_⟩
      · intro hrole
        rw [keptMessage_of_tool seen hrole] at hk
        exact hasMatchingToolCall_mono hsub m.tool_call_id hk
      · apply ih (seen ++ [m]) (out ++ [m])
        intro x hx hrole
        rcases List.mem_append.mp hx with hx1 | hx2
        · exact List.mem_append_left _ (hsub x hx1 hrole)
        · exact List.mem_append_right _ hx2

theorem sanitizeAux_eq_self :
    ∀ (l seen : List Message), orphanFreeFrom seen l → sanitizeAux seen l = l := by
  intro l
  induction l with
  | nil => intro seen _; rfl
  | cons m rest ih =>
    intro seen hof
    obtain ⟨h1, h2⟩ := hof
    have hk : keptMessage seen m = true := by
      by_cases hr : m.role = "tool"
      · rw [keptMessage_of_tool seen hr]; exact h1 hr
      · exact keptMessage_of_ne_tool seen hr
    unfold sanitizeAux
    rw [hk]
    simp only [if_true, List.singleton_append, List.cons.injEq, true_and]
    exact ih (seen ++ [m]) h2

/-- Claim C4: every tool-role message kept by `sanitizeMessageArray` has a
matching `tool_calls` entry on some preceding assistant message of the
sanitized sequence itself — no orphan tool message appears in the sanitized
output. -/
theorem c4_orphan_removal (messages : List Message) :
    orphanFreeFrom [] (sanitizeMessageArray messages) :=
  sanitizeAux_orphanFreeFrom messages [] []
    (by intro x hx _; exact absurd hx (List.not_mem_nil x))

/-- Claim C5: sanitization is idempotent — sanitizing an already-sanitized
message sequence yields the same sequence. -/
theorem c5_sanitize_idempotent (messages : List Message) :
    sanitizeMessageArray (sanitizeMessageArray messages) =
      sanitizeMessageArray messages :=
  sanitizeAux_eq_self (sanitizeMessageArray messages) []
    (sanitizeAux_orphanFreeFrom messages [] []
      (by intro x hx _; exact absurd hx (List.not_mem_nil x)))

/-- Claim C2: if the upstream completion service returns HTTP 429 on every
attempt, `callAOAI` performs exactly `MAX_RETRIES + 1` HTTP attempts and then
surfaces the rate-limit error to its caller. -/
theorem c2_retry_bound {α : Type} (upstream : Nat → Except Nat α)
    (h : ∀ n, upstream n = .error 429) :
    callAOAI upstream 0 = (.error 429, MAX_RETRIES + 1) := by
  rw [callAOAI.eq_def, h 0]
  norm_num [MAX_RETRIES]
  rw [callAOAI.eq_def, h 1]
  norm_num
  rw [callAOAI.eq_def, h 2]
  norm_num
  rw [callAOAI.eq_def, h 3]
  norm_num [MAX_RETRIES]

/-- Witness for claim C2 at a concrete always-429 upstream. -/
theorem c2_retry_bound_witness :
    callAOAI (fun _ => (Except.error 429 : Except Nat Nat)) 0 =
      (Except.error 429, MAX_RETRIES + 1) :=
  c2_retry_bound _ (fun _ => rfl)

/-- Claim C3: the execution phase of `executeToolCalls` is total and isolated:
every requested tool call yields exactly one result entry, and the entry for
each call is a function of that call alone (`execOneToolCall`), so an unknown
tool name or a throwing tool yields an isolated error entry and never
prevents the execution of the remaining tools. -/
theorem c3_tool_isolation (registry : String → Option ToolFn)
    (calls : List ToolCallRequest) :
    (executeToolCallsPhase registry calls).length = calls.length ∧
    executeToolCallsPhase registry calls =
      calls.map (execOneToolCall registry) := by
  have hmap : executeToolCallsPhase registry calls =
      calls.map (execOneToolCall registry) := by
    induction calls with
    | nil => rfl
    | cons tc rest ih =>
      simp only [executeToolCallsPhase, execOneToolCall, List.map_cons,
        List.cons.injEq]
      exact ⟨trivial, ih⟩
  exact ⟨by rw [hmap]; exact List.length_map _ _, hmap⟩

theorem getUserContext_state_context (st : CacheState) (t : Nat) :
    (getUserContext st t).2.context =
      some ⟨(getUserContext st t).1.buildTime⟩ := by
  rcases st with ⟨ctx, lu⟩
  cases ctx with
  | none => cases lu <;> rfl
  | some c =>
    cases lu with
    | none => rfl
    | some l =>
      by_cases hf : t - l < FRESHNESS_WINDOW_MS <;>
        simp [getUserContext, hf, buildUserContext, cacheUserContext]

theorem getUserContext_wellFormed (st : CacheState) (t : Nat)
    (h : CacheWellFormed st) : CacheWellFormed (getUserContext st t).2 := by
  rcases st with ⟨ctx, lu⟩
  intro c l hc hl
  cases ctx with
  | none =>
    cases lu <;>
      · simp [getUserContext, cacheUserContext, buildUserContext] at hc hl
        subst hc; subst hl; exact le_refl _
  | some cc =>
    cases lu with
    | none =>
      simp [getUserContext, cacheUserContext, buildUserContext] at hc hl
      subst hc; subst hl; exact le_refl _
    | some l0 =>
      by_cases hf : t - l0 < FRESHNESS_WINDOW_MS
      · simp [getUserContext, hf] at hc hl
        subst hc; subst hl
        exact h cc l0 rfl rfl
      · simp [getUserContext, hf, cacheUserContext, buildUserContext] at hc hl
        subst hc; subst hl; exact le_refl _

/-- Claim C6: with no invalidation in between, a second `getUserContext` call
that still finds the entry within the freshness threshold returns a payload
with the same build timestamp as the first call; a call made after the
threshold has elapsed (measured against the cache's independent `lastUpdated`
marker) returns a payload whose build timestamp has strictly advanced. -/
theorem c6_cache_freshness (st : CacheState) (t1 t2 : Nat)
    (hwf : CacheWellFormed st) :
    ((∃ l, (getUserContext st t1).2.lastUpdated = some l ∧
        t2 - l < FRESHNESS_WINDOW_MS) →
      (getUserContext (getUserContext st t1).2 t2).1.buildTime =
        (getUserContext st t1).1.buildTime) ∧
    ((∃ l, (getUserContext st t1).2.lastUpdated = some l ∧
        FRESHNESS_WINDOW_MS ≤ t2 - l) →
      (getUserContext st t1).1.buildTime <
        (getUserContext (getUserContext st t1).2 t2).1.buildTime) := by
  have hctx := getUserContext_state_context st t1
  have hwf1 := getUserContext_wellFormed st t1 hwf
  constructor
  · rintro ⟨l, hl, hfresh⟩
    generalize hp : getUserContext st t1 = p at hctx hl ⊢
    obtain ⟨r1, st1⟩ := p
    dsimp only at hctx hl ⊢
    unfold getUserContext
    rw [hctx, hl]
    simp [hfresh]
  · rintro ⟨l, hl, hstale⟩
    generalize hp : getUserContext st t1 = p at hctx hwf1 hl ⊢
    obtain ⟨r1, st1⟩ := p
    dsimp only at hctx hwf1 hl ⊢
    have hb : r1.buildTime ≤ l := hwf1 _ l hctx hl
    unfold getUserContext
    rw [hctx, hl]
    have hcond : ¬ (t2 - l < FRESHNESS_WINDOW_MS) := by omega
    simp only [hcond, if_false, buildUserContext]
    have hw : 0 < FRESHNESS_WINDOW_MS := by norm_num [FRESHNESS_WINDOW_MS]
    omega

/-- Witness for claim C6: starting from a cold cache, a get at time 0 builds
the payload; a second get 1000 ms later returns the same build stamp, while a
get 30 minutes later returns a strictly newer one. -/
theorem c6_cache_freshness_witness :
    (getUserContext (getUserContext ⟨none, none⟩ 0).2 1000).1.buildTime =
      (getUserContext ⟨none, none⟩ 0).1.buildTime ∧
    (getUserContext ⟨none, none⟩ 0).1.buildTime <
      (getUserContext (getUserContext ⟨none, none⟩ 0).2 1800000).1.buildTime := by
  have hwf : CacheWellFormed ⟨none, none⟩ := by
    intro c lu hc _
    cases hc
  exact ⟨(c6_cache_freshness ⟨none, none⟩ 0 1000 hwf).1 ⟨0, rfl, by decide⟩,
    (c6_cache_freshness ⟨none, none⟩ 0 1800000 hwf).2 ⟨0, rfl, by decide⟩⟩

/-- Claim C7: when the underlying paginated list query throws an error whose
message includes the sort-memory marker, the transaction tools return a
count-only fallback result (no exception), and the count they carry equals
the corresponding direct count query over the same filter parameters. -/
theorem c7_pagination_fallback (db : List TransactionRow) (e : JsError)
    (userId acct : String) (startDate endDate : Nat)
    (argsPage argsLimit : Option Nat) (forecastType : Option String)
    (hmem : strIncludes e.message "sort memory" = true) (hacct : acct ≠ "") :
    getUserTransactionsTool db (.error e) userId (some acct) none
        startDate endDate argsPage argsLimit =
      .ok (.memoryFallback
        ("Database memory limit reached. Summary: " ++
          toString (getTransactionsByUserAndAccountCount db userId acct
            startDate endDate) ++
          " transactions found. Please use smaller date ranges.")
        (getTransactionsByUserAndAccountCount db userId acct
          startDate endDate)) ∧
    getUpcomingTransactionsTool db (.error e) (some acct) none
        startDate endDate forecastType argsPage argsLimit =
      .ok (.memoryFallback
        ("Database memory limit reached. Found " ++
          toString (getUpcomingByAccountAndRangeCount db acct
            startDate endDate (forecastType.getD "F")) ++
          " upcoming transactions total. Please use smaller date ranges.")
        (getUpcomingByAccountAndRangeCount db acct startDate endDate
          (forecastType.getD "F"))) := by
  have htr : jsTruthy (some acct) = true := by
    simp [jsTruthy, hacct]
  constructor
  · unfold getUserTransactionsTool
    simp [jsOr, htr, hmem, getTransactionSummaryTotal,
      getTransactionsByUserAndAccountCount]
  · unfold getUpcomingTransactionsTool
    simp [jsOr, htr, hmem]

/-- Witness for claim C7 at a concrete database and a concrete thrown
sort-memory error. -/
theorem c7_pagination_fallback_witness :
    getUserTransactionsTool
        [⟨"acc1", 5, "F"⟩, ⟨"acc1", 50, "F"⟩, ⟨"acc2", 5, "F"⟩]
        (.error ⟨"could not perform sort: sort memory exhausted"⟩) "u1"
        (some "acc1") none 0 10 none none =
      .ok (.memoryFallback
        ("Database memory limit reached. Summary: " ++ toString 1 ++
          " transactions found. Please use smaller date ranges.") 1) ∧
    getUpcomingTransactionsTool
        [⟨"acc1", 5, "F"⟩, ⟨"acc1", 50, "F"⟩, ⟨"acc2", 5, "F"⟩]
        (.error ⟨"could not perform sort: sort memory exhausted"⟩)
        (some "acc1") none 0 10 none none none =
      .ok (.memoryFallback
        ("Database memory limit reached. Found " ++ toString 1 ++
          " upcoming transactions total. Please use smaller date ranges.") 1) := by
  have h := c7_pagination_fallback
    [⟨"acc1", 5, "F"⟩, ⟨"acc1", 50, "F"⟩, ⟨"acc2", 5, "F"⟩]
    ⟨"could not perform sort: sort memory exhausted"⟩ "u1" "acc1" 0 10
    none none none (by decide) (by decide)
  refine ⟨?_, ?_⟩
  · rw [h.1]
    rfl
  · rw [h.2]
    rfl

/-- Claim C10: when no account id is supplied in the arguments and none is
present in the call context, `getUserTransactions` and `getBalances` return
an error-message object explaining that an account id is required, without
throwing and independently of the data layer (which is therefore never
consulted). -/
theorem c10_missing_account_id {α : Type} (db : List TransactionRow)
    (paginatedOutcome : Except JsError TransactionsPage)
    (balancesOutcome : Except JsError α) (userId : String)
    (startDate endDate : Nat) (argsPage argsLimit : Option Nat) :
    getUserTransactionsTool db paginatedOutcome userId none none
        startDate endDate argsPage argsLimit =
      .ok (.missingAccount
        "Account ID is required but not provided in arguments or context"
        "Please specify an accountId parameter or ensure it is available in the session context") ∧
    getBalancesTool balancesOutcome none none =
      .ok (.missingAccount
        "Account ID is required but not provided in arguments or context"
        "Please specify an accountId parameter or ensure it is available in the session context") :=
  ⟨rfl, rfl⟩

/-- Claim C9: the history persisted after an exchange contains no tool-role
message (given that the loaded history, which this flow itself only ever
extends with user/assistant turns, contains none), and the persisted sequence
is exactly a suffix of the sanitized prior history followed by the user's
message and the assistant's final answer — tool results are never appended. -/
theorem c9_history_no_tool_messages (history : List Message)
    (userText finalText : List Char)
    (hnotool : ∀ m ∈ history, m.role ≠ "tool") :
    (∀ m ∈ persistedHistory history userText finalText, m.role ≠ "tool") ∧
    (∃ k, persistedHistory history userText finalText =
      (sanitizeMessageArray history).drop k ++
        [userMessage userText, assistantMessage finalText]) := by
  constructor
  · intro m hm
    unfold persistedHistory at hm
    have hm' := List.mem_of_mem_drop hm
    rcases List.mem_append.mp hm' with h1 | h2
    · exact hnotool m (mem_of_mem_sanitizeAux h1)
    · have : m = userMessage userText ∨ m = assistantMessage finalText := by
        simpa using h2
      rcases this with hm1 | hm2
      · subst hm1; simp [userMessage]
      · subst hm2; simp [assistantMessage]
  · simp only [persistedHistory]
    have hM : MAX_MEMORY = 10 := rfl
    by_cases hlen :
        (sanitizeMessageArray history ++
          [userMessage userText, assistantMessage finalText]).length ≤
          MAX_MEMORY
    · refine ⟨0, ?_⟩
      rw [Nat.sub_eq_zero_of_le hlen, List.drop_zero, List.drop_zero]
    · refine ⟨(sanitizeMessageArray history).length + 2 - MAX_MEMORY, ?_⟩
      have hlen' : (sanitizeMessageArray history ++
          [userMessage userText, assistantMessage finalText]).length =
          (sanitizeMessageArray history).length + 2 := by
        simp
      rw [hlen']
      exact List.drop_append_of_le_length (by omega)

/-- Witness for claim C9 at a concrete exchange. -/
theorem c9_history_no_tool_witness :
    (∀ m ∈ persistedHistory [userMessage ['h']] ['q'] ['r'], m.role ≠ "tool") ∧
    (∃ k, persistedHistory [userMessage ['h']] ['q'] ['r'] =
      (sanitizeMessageArray [userMessage ['h']]).drop k ++
        [userMessage ['q'], assistantMessage ['r']]) :=
  c9_history_no_tool_messages [userMessage ['h']] ['q'] ['r']
    (by intro m hm; rw [List.mem_singleton] at hm; subst hm; decide)

theorem dropWhile_ws_replicate {c : Char} (h : c.isWhitespace = false)
    (n : Nat) :
    List.dropWhile Char.isWhitespace (List.replicate n c) =
      List.replicate n c := by
  cases n with
  | zero => rfl
  | succ k => simp [List.replicate_succ, List.dropWhile_cons, h]

theorem jsTrim_replicate {c : Char} (h : c.isWhitespace = false) (n : Nat) :
    jsTrim (List.replicate n c) = List.replicate n c := by
  unfold jsTrim
  rw [dropWhile_ws_replicate h, List.reverse_replicate,
    dropWhile_ws_replicate h, List.reverse_replicate]

theorem length_truncateText (text : List Char) (maxChars : Nat)
    (h1 : 1 ≤ maxChars) (h : maxChars < (jsTrim text).length) :
    (truncateText text maxChars).length = maxChars := by
  simp only [truncateText]
  rw [if_neg (by omega)]
  simp only [List.length_append, List.length_take, List.length_cons,
    List.length_nil]
  omega

theorem truncationLimit_pos (role : String) : 1 ≤ truncationLimit role := by
  unfold truncationLimit
  split <;> norm_num [SYSTEM_PROMPT_MAX_LENGTH, MAX_MESSAGE_LENGTH]

/-- Counterexample to claim C8 as stated: the ceiling applied inside
`truncateMessage` to a system-role message is `SYSTEM_PROMPT_MAX_LENGTH`
= 15000, while the ceiling applied to a user-role message is
`MAX_MESSAGE_LENGTH` = 20000, so the system ceiling is not strictly greater
than the ceiling of other roles. -/
theorem c8_ceiling_counterexample :
    truncationLimit "system" = 15000 ∧ truncationLimit "user" = 20000 ∧
    ¬ truncationLimit "user" < truncationLimit "system" := by
  refine ⟨rfl, rfl, by decide⟩

/-- Claim C8 (amended): content truncation applies a role-specific character
ceiling; every message whose trimmed content exceeds its ceiling is truncated
to exactly the ceiling, and the ceiling applied to a system-role message
(15000) is strictly smaller — not greater — than the ceiling applied to any
other role (20000). -/
theorem c8_truncation_ceiling (m : Message) (r : String)
    (hlong : truncationLimit m.role < (jsTrim m.content).length)
    (hr : r ≠ "system") :
    ((truncateMessage m).content).length = truncationLimit m.role ∧
    truncationLimit "system" < truncationLimit r := by
  constructor
  · have hne : m.content.isEmpty = false := by
      cases hc : m.content with
      | nil =>
        exfalso
        rw [hc] at hlong
        have hnil : jsTrim [] = [] := rfl
        rw [hnil] at hlong
        simp at hlong
      | cons a l => rfl
    unfold truncateMessage
    rw [hne]
    simp only [Bool.false_eq_true, if_false]
    exact length_truncateText m.content (truncationLimit m.role)
      (truncationLimit_pos m.role) hlong
  · have h2 : truncationLimit r = MAX_MESSAGE_LENGTH := by
      unfold truncationLimit
      rw [if_neg (by simp [hr])]
    rw [h2]
    decide

/-- Witness for claim C8 at a concrete over-long user message. -/
theorem c8_truncation_witness :
    ((truncateMessage ⟨"user", List.replicate 20001 'a', [], none⟩).content).length =
      truncationLimit "user" ∧
    truncationLimit "system" < truncationLimit "assistant" := by
  refine c8_truncation_ceiling ⟨"user", List.replicate 20001 'a', [], none⟩
    "assistant" ?_ (by decide)
  show truncationLimit "user" < (jsTrim (List.replicate 20001 'a')).length
  rw [jsTrim_replicate (by decide) 20001, List.length_replicate]
  decide

theorem truncateMessage_role (m : Message) :
    (truncateMessage m).role = m.role := by
  unfold truncateMessage
  split <;> rfl

theorem filter_system_nil {L : List Message}
    (h : ∀ m ∈ L, m.role ≠ "system") :
    L.filter (fun m => m.role == "system") = [] := by
  induction L with
  | nil => rfl
  | cons a t ih =>
    rw [List.filter_cons]
    have ha : (a.role == "system") = false :=
      beq_eq_false_iff_ne.mpr (h a (List.mem_cons_self a t))
    rw [ha]
    simp only [Bool.false_eq_true, if_false]
    exact ih fun m hm => h m (List.mem_cons_of_mem a hm)

theorem pinned_shape (sysMsg userMsg : Message) (L : List Message)
    (hsys : (sysMsg.role == "system") = true) (huser : userMsg.role ≠ "system")
    (hL : ∀ m ∈ L, m.role ≠ "system") :
    (sysMsg :: (L ++ [userMsg])).head? = some sysMsg ∧
    ((sysMsg :: (L ++ [userMsg])).filter
      (fun m => m.role == "system")).length = 1 ∧
    (sysMsg :: (L ++ [userMsg])).getLast? = some userMsg := by
  refine ⟨rfl, ?_, ?_⟩
  · rw [List.filter_cons, hsys]
    simp only [if_true]
    have h2 : (L ++ [userMsg]).filter (fun m => m.role == "system") = [] := by
      apply filter_system_nil
      intro m hm
      rcases List.mem_append.mp hm with hm1 | hm2
      · exact hL m hm1
      · have : m = userMsg := by simpa using hm2
        subst this
        exact huser
    rw [h2]
    rfl
  · rw [show sysMsg :: (L ++ [userMsg]) = (sysMsg :: L) ++ [userMsg] by simp]
    exact List.getLast?_concat _

theorem evictOldest_spec (sysMsg userMsg : Message)
    (hs : (sysMsg.role == "system") = true) (hu : userMsg.role ≠ "system") :
    ∀ (history messages : List Message) (attempts : Nat),
      attempts ≤ MAX_EVICTION_ATTEMPTS →
      (∀ m ∈ history, m.role ≠ "system") →
      (messages.head? = some sysMsg ∧
        (messages.filter (fun m => m.role == "system")).length = 1 ∧
        messages.getLast? = some userMsg) →
      ((evictOldest sysMsg userMsg history messages attempts).messages.head? =
          some sysMsg ∧
        ((evictOldest sysMsg userMsg history messages attempts).messages.filter
          (fun m => m.role == "system")).length = 1 ∧
        (evictOldest sysMsg userMsg history messages attempts).messages.getLast? =
          some userMsg) ∧
      history.length -
          (evictOldest sysMsg userMsg history messages attempts).history.length ≤
        MAX_EVICTION_ATTEMPTS - attempts ∧
      (serializedSize
          (evictOldest sysMsg userMsg history messages attempts).messages ≤
          REQUEST_BYTE_BUDGET ∨
        MAX_EVICTION_ATTEMPTS ≤
          (evictOldest sysMsg userMsg history messages attempts).attempts ∨
        (evictOldest sysMsg userMsg history messages attempts).history.length ≤
          2) := by
  intro history
  induction history with
  | nil =>
    intro messages attempts hatt hh hP
    have hstop : MAX_EVICTION_ATTEMPTS ≤ attempts ∨
        ([] : List Message).length ≤ 2 := Or.inr (by simp)
    unfold evictOldest
    rw [if_pos hstop]
    exact ⟨hP, by simp, Or.inr (Or.inr (by simp))⟩
  | cons m0 rest ih =>
    intro messages attempts hatt hh hP
    unfold evictOldest
    by_cases hstop : MAX_EVICTION_ATTEMPTS ≤ attempts ∨
        (m0 :: rest).length ≤ 2
    · rw [if_pos hstop]
      refine ⟨hP, by simp, ?_⟩
      rcases hstop with h | h
      · exact Or.inr (Or.inl h)
      · exact Or.inr (Or.inr h)
    · rw [if_neg hstop]
      dsimp only
      push_neg at hstop
      obtain ⟨hstop1, _⟩ := hstop
      have hrest : ∀ m ∈ rest, m.role ≠ "system" := fun m hm =>
        hh m (List.mem_cons_of_mem m0 hm)
      have hPnew :
          (sysMsg :: (rest.map truncateMessage ++ [userMsg])).head? =
              some sysMsg ∧
            ((sysMsg :: (rest.map truncateMessage ++ [userMsg])).filter
              (fun m => m.role == "system")).length = 1 ∧
            (sysMsg :: (rest.map truncateMessage ++ [userMsg])).getLast? =
              some userMsg := by
        apply pinned_shape sysMsg userMsg _ hs hu
        intro m hm
        obtain ⟨m', hm', hmm⟩ := List.mem_map.mp hm
        subst hmm
        rw [truncateMessage_role]
        exact hrest m' hm'
      by_cases hsz :
          serializedSize (sysMsg :: (rest.map truncateMessage ++ [userMsg])) ≤
            REQUEST_BYTE_BUDGET
      · rw [if_pos hsz]
        refine ⟨hPnew, ?_, Or.inl hsz⟩
        simp only [List.length_cons]
        omega
      · rw [if_neg hsz]
        have h := ih (sysMsg :: (rest.map truncateMessage ++ [userMsg]))
          (attempts + 1) (by omega) hrest hPnew
        refine ⟨h.1, ?_, h.2.2⟩
        have hd := h.2.1
        simp only [List.length_cons]
        omega

/-- Claim C1 (amended): whenever the assembled request exceeds the byte
budget, the eviction loop removes the oldest history messages one at a time,
at most `MAX_EVICTION_ATTEMPTS` = 20 of them; the resulting message array
always still begins with exactly one system message and ends with the new
user message; and the final serialized size is at or under the budget, or the
loop exhausts its attempts, or the loop stops early because at most two
history messages remain — in every case without ever dropping the system
message or the newest user message. -/
theorem c1_eviction_bounded_and_pinned (systemContent : List Char)
    (contextMsgs : List (List Char)) (history : List Message)
    (message : List Char) (hnosys : ∀ m ∈ history, m.role ≠ "system") :
    (chatAssemble systemContent contextMsgs history message).messages.head? =
      some (systemMessage systemContent) ∧
    ((chatAssemble systemContent contextMsgs history message).messages.filter
      (fun m => m.role == "system")).length = 1 ∧
    (chatAssemble systemContent contextMsgs history message).messages.getLast? =
      some (userMessage message) ∧
    history.length -
        (chatAssemble systemContent contextMsgs history message).history.length ≤
      MAX_EVICTION_ATTEMPTS ∧
    (serializedSize
        (chatAssemble systemContent contextMsgs history message).messages ≤
        REQUEST_BYTE_BUDGET ∨
      MAX_EVICTION_ATTEMPTS ≤
        (chatAssemble systemContent contextMsgs history message).attempts ∨
      (chatAssemble systemContent contextMsgs history message).history.length ≤
        2) := by
  have hs : ((systemMessage systemContent).role == "system") = true := rfl
  have hu : (userMessage message).role ≠ "system" := by
    show ("user" : String) ≠ "system"
    decide
  have hL : ∀ m ∈ sanitizeMessageArray (history.map truncateMessage) ++
      contextMsgs.map userMessage, m.role ≠ "system" := by
    intro m hm
    rcases List.mem_append.mp hm with hm1 | hm2
    · have hm1' := mem_of_mem_sanitizeAux hm1
      obtain ⟨m', hm', hmm⟩ := List.mem_map.mp hm1'
      subst hmm
      rw [truncateMessage_role]
      exact hnosys m' hm'
    · obtain ⟨c, _, hmm⟩ := List.mem_map.mp hm2
      subst hmm
      show ("user" : String) ≠ "system"
      decide
  have hP0 := pinned_shape (systemMessage systemContent)
    (userMessage message)
    (sanitizeMessageArray (history.map truncateMessage) ++
      contextMsgs.map userMessage) hs hu hL
  simp only [chatAssemble]
  split
  · have h := evictOldest_spec (systemMessage systemContent)
      (userMessage message) hs hu history _ 0
      (by norm_num [MAX_EVICTION_ATTEMPTS]) hnosys hP0
    refine ⟨h.1.1, h.1.2.1, h.1.2.2, ?_, h.2.2⟩
    have := h.2.1
    omega
  · rename_i hbud
    refine ⟨hP0.1, hP0.2.1, hP0.2.2, by simp, Or.inl ?_⟩
    dsimp only
    omega

theorem serializedSize_c1_final (big : List Char) (hbig : big.length = 800000) :
    serializedSize (systemMessage ['S'] ::
      ([(⟨"assistant", ['b'], [], none⟩ : Message), ⟨"user", ['c'], [], none⟩] ++
        [userMessage big])) = 800127 := by
  have l1 : ("system" : String).length = 6 := rfl
  have l2 : ("user" : String).length = 4 := rfl
  have l3 : ("assistant" : String).length = 9 := rfl
  simp only [serializedSize, msgJsonSize, systemMessage, userMessage,
    List.cons_append, List.nil_append, List.map_cons, List.map_nil,
    List.sum_cons, List.sum_nil, List.length_cons, List.length_nil,
    l1, l2, l3, hbig]
  omega

theorem chatAssemble_c1_eval (big : List Char) (hbig : big.length = 800000) :
    chatAssemble ['S'] [] c1BadHistory big =
      ⟨systemMessage ['S'] ::
        ([(⟨"assistant", ['b'], [], none⟩ : Message),
          ⟨"user", ['c'], [], none⟩] ++ [userMessage big]),
        [⟨"assistant", ['b'], [], none⟩, ⟨"user", ['c'], [], none⟩], 1⟩ := by
  have hsan : sanitizeMessageArray (c1BadHistory.map truncateMessage) =
      c1BadHistory := by decide
  have htr2 : List.map truncateMessage
      [(⟨"assistant", ['b'], [], none⟩ : Message), ⟨"user", ['c'], [], none⟩] =
      [⟨"assistant", ['b'], [], none⟩, ⟨"user", ['c'], [], none⟩] := by decide
  have l1 : ("system" : String).length = 6 := rfl
  have l2 : ("user" : String).length = 4 := rfl
  have l3 : ("assistant" : String).length = 9 := rfl
  have hs0 : serializedSize (systemMessage ['S'] ::
      (c1BadHistory ++ [userMessage big])) = 800157 := by
    simp only [serializedSize, msgJsonSize, systemMessage, userMessage,
      c1BadHistory, List.cons_append, List.nil_append, List.map_cons,
      List.map_nil, List.sum_cons, List.sum_nil, List.length_cons,
      List.length_nil, l1, l2, l3, hbig]
    omega
  have hs1 := serializedSize_c1_final big hbig
  simp only [chatAssemble, hsan, List.map_nil, List.append_nil]
  rw [hs0]
  rw [if_pos (by norm_num [REQUEST_BYTE_BUDGET])]
  unfold evictOldest
  rw [if_neg (by simp [MAX_EVICTION_ATTEMPTS, c1BadHistory])]
  simp only [c1BadHistory]
  rw [htr2, hs1]
  rw [if_neg (by norm_num [REQUEST_BYTE_BUDGET])]
  unfold evictOldest
  rw [if_pos (Or.inr (by simp))]

/-- Counterexample to claim C1 as stated: with a three-message prior history
and an 800000-character new user message, the assembled request exceeds the
byte budget and the eviction loop runs, but it stops after a single eviction
because only two history messages remain; the final serialized size is still
above the budget even though the loop has not exhausted its 20 attempts, so
the claimed disjunction (final size at or under budget, or attempts
exhausted) fails. -/
theorem c1_eviction_counterexample :
    c1Bad.attempts = 1 ∧
    ¬ (serializedSize c1Bad.messages ≤ REQUEST_BYTE_BUDGET ∨
        MAX_EVICTION_ATTEMPTS ≤ c1Bad.attempts) := by
  have hlen : (List.replicate 800000 'a').length = 800000 :=
    List.length_replicate _ _
  have hc : c1Bad = ⟨systemMessage ['S'] ::
      ([(⟨"assistant", ['b'], [], none⟩ : Message),
        ⟨"user", ['c'], [], none⟩] ++
        [userMessage (List.replicate 800000 'a')]),
      [⟨"assistant", ['b'], [], none⟩, ⟨"user", ['c'], [], none⟩], 1⟩ :=
    chatAssemble_c1_eval (List.replicate 800000 'a') hlen
  rw [hc]
  refine ⟨rfl, ?_⟩
  rw [show (⟨systemMessage ['S'] ::
      ([(⟨"assistant", ['b'], [], none⟩ : Message),
        ⟨"user", ['c'], [], none⟩] ++
        [userMessage (List.replicate 800000 'a')]),
      [⟨"assistant", ['b'], [], none⟩, ⟨"user", ['c'], [], none⟩],
      1⟩ : ChatAssembly).messages = systemMessage ['S'] ::
      ([(⟨"assistant", ['b'], [], none⟩ : Message),
        ⟨"user", ['c'], [], none⟩] ++
        [userMessage (List.replicate 800000 'a')]) from rfl]
  rw [serializedSize_c1_final (List.replicate 800000 'a') hlen]
  norm_num [REQUEST_BYTE_BUDGET, MAX_EVICTION_ATTEMPTS]

/-- Witness for claim C1 at a small concrete input. -/
theorem c1_eviction_witness :
    (chatAssemble ['S'] [] [] ['m']).messages.head? =
      some (systemMessage ['S']) ∧
    ((chatAssemble ['S'] [] [] ['m']).messages.filter
      (fun m => m.role == "system")).length = 1 ∧
    (chatAssemble ['S'] [] [] ['m']).messages.getLast? =
      some (userMessage ['m']) ∧
    ([] : List Message).length -
        (chatAssemble ['S'] [] [] ['m']).history.length ≤
      MAX_EVICTION_ATTEMPTS ∧
    (serializedSize (chatAssemble ['S'] [] [] ['m']).messages ≤
        REQUEST_BYTE_BUDGET ∨
      MAX_EVICTION_ATTEMPTS ≤ (chatAssemble ['S'] [] [] ['m']).attempts ∨
      (chatAssemble ['S'] [] [] ['m']).history.length ≤ 2) :=
  c1_eviction_bounded_and_pinned ['S'] [] [] ['m']
    (by intro m hm; exact absurd hm (List.not_mem_nil m))
